import Mathlib

/-!
Verification of the IceNetETL ingestion core
(`azfunctions/InputBlobTrigger/processor.py`).

The development shallowly embeds the data-flow of `Processor`:
the grid-geometry deriver and cell upserter (`update_geometries`),
the cell resolver and prediction upserter (`update_predictions`),
and the latest-view refresher (`update_latest_prediction`),
together with the chunking/ETA utilities they use.

Modelling conventions:
* floating-point coordinate values are modelled as rationals (`ℚ`);
* Python `int(...)` (truncation toward zero) is `pyInt`;
* missing values (NaN) are modelled with `Option`;
* database tables are lists of rows plus a serial-sequence counter.
-/

namespace IceNetETL

/-- Python `int()` applied to a real value: truncation toward zero. -/
def pyInt (q : ℚ) : ℤ := if 0 ≤ q then ⌊q⌋ else ⌈q⌉


/-- Sum of absolute consecutive differences of a list of rationals. -/
def absDiffSum : List ℚ → ℚ
  | [] => 0
  | [_] => 0
  | a :: b :: rest => |b - a| + absDiffSum (b :: rest)

/-- Modelled from the spec: `mean_step_size` from the missing `utils` module —
"compute mean absolute consecutive difference" of a coordinate axis
(requires at least 2 points). -/
def mean_step_size (axis : List ℚ) : ℚ :=
  absDiffSum axis / (axis.length - 1 : ℚ)

/-- Geometry record emitted by the deriver loop of `update_geometries`
(processor.py lines 106–122): integer-meter centroids plus the polygon
WKT passed for both geometry columns. The polygon is modelled by its
corner ring. -/
structure GeomRecord where
  centroid_x : ℤ
  centroid_y : ℤ
  geom_6931 : List (ℤ × ℤ)
  geom_4326_src : List (ℤ × ℤ)
  deriving DecidableEq, Repr

/-- The five-point corner ring built at processor.py lines 113–121. -/
def mkPolygon (x_min_m x_max_m y_min_m y_max_m : ℤ) : List (ℤ × ℤ) :=
  [(x_min_m, y_max_m), (x_max_m, y_max_m), (x_max_m, y_min_m),
   (x_min_m, y_min_m), (x_min_m, y_max_m)]

/-- Per-axis half-width in meters, exactly as computed at
processor.py lines 102–103: `1000 * int(0.5 * mean_step_size(axis))`
(truncation happens BEFORE the kilometer→meter conversion). -/
def axisDeltaM (axis : List ℚ) : ℤ := 1000 * pyInt (1/2 * mean_step_size axis)

/-- The Grid Geometry Deriver: the record-construction loop of
`update_geometries` (processor.py lines 99–122).  Outer loop over the
x-axis, inner loop over the y-axis; centroids are truncated to integer
meters with Python `int`. -/
def deriveGeometries (xs ys : List ℚ) : List GeomRecord :=
  let x_delta_m := axisDeltaM xs
  let y_delta_m := axisDeltaM ys
  xs.flatMap fun centroid_x_km =>
    let centroid_x_m := pyInt (1000 * centroid_x_km)
    ys.map fun centroid_y_km =>
      let centroid_y_m := pyInt (1000 * centroid_y_km)
      let poly := mkPolygon (centroid_x_m - x_delta_m) (centroid_x_m + x_delta_m)
        (centroid_y_m - y_delta_m) (centroid_y_m + y_delta_m)
      { centroid_x := centroid_x_m
        centroid_y := centroid_y_m
        geom_6931 := poly
        geom_4326_src := poly }


/-- The integer-meter image of one axis value, as used for record centroids
(processor.py lines 108/110): `int(1000 * centroid_km)`. -/
def truncKmToM (km : ℚ) : ℤ := pyInt (1000 * km)


/-! ## Geometry table (`cell`)

Schema from processor.py lines 84–95: serial `cell_id`, integer `centroid_x`,
`centroid_y` with `UNIQUE (centroid_x, centroid_y)`, and two geometry columns.
`ST_Transform` to SRID 4326 is an external PostGIS function; the table row
stores the source ring for both columns (the transform is a fixed injective
reprojection applied to `geom_4326_src`, irrelevant to the properties here). -/

structure GeomRow where
  cell_id : ℕ
  centroid_x : ℤ
  centroid_y : ℤ
  geom_6931 : List (ℤ × ℤ)
  geom_4326_src : List (ℤ × ℤ)
  deriving DecidableEq, Repr

structure GeomTable where
  rows : List GeomRow
  nextId : ℕ
  deriving DecidableEq, Repr

/-- One `INSERT ... ON CONFLICT DO NOTHING` into the `cell` table
(processor.py lines 136–143).  On a `UNIQUE (centroid_x, centroid_y)`
conflict the row is skipped; the serial sequence advances either way
(Postgres evaluates the `DEFAULT` before the conflict check). -/
def insertGeom (t : GeomTable) (r : GeomRecord) : GeomTable :=
  let newRow : GeomRow :=
    { cell_id := t.nextId
      centroid_x := r.centroid_x
      centroid_y := r.centroid_y
      geom_6931 := r.geom_6931
      geom_4326_src := r.geom_4326_src }
  if t.rows.any fun row =>
      row.centroid_x == r.centroid_x && row.centroid_y == r.centroid_y then
    { t with nextId := t.nextId + 1 }
  else
    { rows := t.rows ++ [newRow], nextId := t.nextId + 1 }

/-- The Cell Upserter: the insert loop of `update_geometries`
(processor.py lines 129–148).  Batching only groups the same per-record
inserts into chunks between commits, so the table state after the run is the
left fold of `insertGeom` over the derived records. -/
def update_geometries (xs ys : List ℚ) (t : GeomTable) : GeomTable :=
  (deriveGeometries xs ys).foldl insertGeom t

/-- A centroid pair is already present in the geometry table. -/
def hasCentroid (t : GeomTable) (cx cy : ℤ) : Prop :=
  ∃ row ∈ t.rows, row.centroid_x = cx ∧ row.centroid_y = cy


/-! ## Predictions (`update_predictions`, processor.py lines 151–245)

A raw record is one point of the decoded multi-dimensional array, as it
appears as a row of `self.xr.to_dataframe()`: index columns
(time/leadtime/xc/yc) and the data variables `mean`/`stddev`.  `time.date()`
is modelled as an abstract day number carried by the record; NaN data values
are `none`. -/

structure PredRecordRaw where
  date : ℤ
  leadtime : ℤ
  xc : ℚ
  yc : ℚ
  mean : Option ℚ
  stddev : Option ℚ
  deriving DecidableEq, Repr

/-- `self.xr.where(self.xr["mean"] > 0)` (processor.py line 179): wherever the
condition fails — mean non-positive or NaN — every data variable of that
point is masked to NaN. -/
def whereMeanPos (r : PredRecordRaw) : PredRecordRaw :=
  match r.mean with
  | some m => if 0 < m then r else { r with mean := none, stddev := none }
  | none => { r with mean := none, stddev := none }

/-- A row of `df_predictions` after `.dropna().reset_index()`: all values
present. -/
structure PredRecord where
  date : ℤ
  leadtime : ℤ
  xc : ℚ
  yc : ℚ
  mean : ℚ
  stddev : ℚ
  deriving DecidableEq, Repr

/-- `.to_dataframe().dropna()` after the mask (processor.py line 179): keep
exactly the rows with no NaN in any column. -/
def filterPredictions (rs : List PredRecordRaw) : List PredRecord :=
  rs.filterMap fun r =>
    match (whereMeanPos r).mean, (whereMeanPos r).stddev with
    | some m, some s =>
      some { date := r.date, leadtime := r.leadtime, xc := r.xc, yc := r.yc,
             mean := m, stddev := s }
    | _, _ => none

/-- The meter columns `xc_m`/`yc_m` built at processor.py lines 181–186:
`pd.to_numeric(1000 * xc, downcast="integer")`.  `to_numeric` never changes
the numeric value — it only downcasts the column dtype to integer when every
value is already integral — so the column's value is exactly `1000 * xc`
(NOT a truncation). -/
def xcMeters (r : PredRecord) : ℚ := 1000 * r.xc

def ycMeters (r : PredRecord) : ℚ := 1000 * r.yc

/-- The Cell Resolver: the left merge of `df_predictions` against `df_cells`
on `(xc_m, yc_m) = (centroid_x, centroid_y)` (processor.py lines 189–201).
A record matches a cell iff its meter values are exactly equal to the
integer centroids; an unmatched record keeps a null `cell_id`.  The
database's `UNIQUE (centroid_x, centroid_y)` constraint makes the match
unique, so the merge contributes at most one cell per record, modelled by
`find?`. -/
def resolveCell (cells : List GeomRow) (r : PredRecord) : Option ℕ :=
  (cells.find? fun c =>
      decide (xcMeters r = (c.centroid_x : ℚ)) &&
        decide (ycMeters r = (c.centroid_y : ℚ))).map GeomRow.cell_id

/-- A row of `df_merged`: a filtered record together with its resolved
(possibly null) cell id. -/
structure MergedRecord where
  date : ℤ
  leadtime : ℤ
  cell_id : Option ℕ
  mean : ℚ
  stddev : ℚ
  deriving DecidableEq, Repr

def mergeRecord (cells : List GeomRow) (r : PredRecord) : MergedRecord :=
  { date := r.date, leadtime := r.leadtime, cell_id := resolveCell cells r,
    mean := r.mean, stddev := r.stddev }

/-- `df_merged` (processor.py lines 178–201): filter, add meter columns,
left-merge against the geometry table. -/
def update_predictions_records (cells : List GeomRow) (raws : List PredRecordRaw) :
    List MergedRecord :=
  (filterPredictions raws).map (mergeRecord cells)

/-- A row of the `prediction` table (schema at processor.py lines 157–170):
serial key, `UNIQUE (date, leadtime, cell_id)`, nullable foreign key to
`cell`. -/
structure PredRow where
  prediction_id : ℕ
  date : ℤ
  leadtime : ℤ
  cell_id : Option ℕ
  mean : ℚ
  stddev : ℚ
  deriving DecidableEq, Repr

structure PredTable where
  rows : List PredRow
  nextId : ℕ
  deriving DecidableEq, Repr

/-- Does an incoming record conflict with an existing row under
`UNIQUE (date, leadtime, cell_id)`?  Postgres treats NULLs in a unique
constraint as distinct, so a null `cell_id` never conflicts. -/
def predConflict (row : PredRow) (m : MergedRecord) : Bool :=
  row.date == m.date && row.leadtime == m.leadtime &&
    match row.cell_id, m.cell_id with
    | some a, some b => a == b
    | _, _ => false

/-- One `INSERT ... ON CONFLICT DO NOTHING` into `prediction`
(processor.py lines 217–237). -/
def insertPred (t : PredTable) (m : MergedRecord) : PredTable :=
  let newRow : PredRow :=
    { prediction_id := t.nextId
      date := m.date
      leadtime := m.leadtime
      cell_id := m.cell_id
      mean := m.mean
      stddev := m.stddev }
  if t.rows.any (predConflict · m) then
    { t with nextId := t.nextId + 1 }
  else
    { rows := t.rows ++ [newRow], nextId := t.nextId + 1 }

/-- The Prediction Upserter: `update_predictions` end to end
(filter → resolve → batched insert loop, processor.py lines 176–245). -/
def update_predictions (cells : List GeomRow) (raws : List PredRecordRaw)
    (t : PredTable) : PredTable :=
  (update_predictions_records cells raws).foldl insertPred t

/-! ## Latest view (`update_latest_prediction`, processor.py lines 247–273) -/

/-- A row of the `prediction_latest` materialized view (columns selected at
processor.py lines 255–265, without the positional `prediction_latest_id`
row number, which is just `row_number()` over the result).  Columns coming
from the `cell` side of the FULL OUTER JOIN are null when unmatched; `date`
itself is null on cell-only rows. -/
structure ViewRow where
  date : Option ℤ
  leadtime : Option ℤ
  mean : Option ℚ
  stddev : Option ℚ
  cell_id : Option ℕ
  centroid_x : Option ℤ
  centroid_y : Option ℤ
  geom_6931 : Option (List (ℤ × ℤ))
  geom_4326_src : Option (List (ℤ × ℤ))
  deriving DecidableEq, Repr

def viewRowOfPred (p : PredRow) (c : Option GeomRow) : ViewRow :=
  { date := some p.date
    leadtime := some p.leadtime
    mean := some p.mean
    stddev := some p.stddev
    cell_id := c.map GeomRow.cell_id
    centroid_x := c.map GeomRow.centroid_x
    centroid_y := c.map GeomRow.centroid_y
    geom_6931 := c.map GeomRow.geom_6931
    geom_4326_src := c.map GeomRow.geom_4326_src }

def viewRowOfCell (c : GeomRow) : ViewRow :=
  { date := none, leadtime := none, mean := none, stddev := none,
    cell_id := some c.cell_id, centroid_x := some c.centroid_x,
    centroid_y := some c.centroid_y, geom_6931 := some c.geom_6931,
    geom_4326_src := some c.geom_4326_src }

/-- `FROM prediction FULL OUTER JOIN cell ON prediction.cell_id = cell.cell_id`
(processor.py lines 266–267): every prediction paired with its matching
cells (or nulls), plus every cell matched by no prediction, with nulls on
the prediction side. -/
def fullOuterJoin (P : List PredRow) (C : List GeomRow) : List ViewRow :=
  (P.flatMap fun p =>
    match C.filter fun c => p.cell_id == some c.cell_id with
    | [] => [viewRowOfPred p none]
    | cs => cs.map fun c => viewRowOfPred p (some c)) ++
  ((C.filter fun c => !(P.any fun p => p.cell_id == some c.cell_id)).map
    viewRowOfCell)

/-- `(SELECT max(date) FROM prediction)` — null on an empty table. -/
def maxDate (P : List PredRow) : Option ℤ := (P.map PredRow.date).max?

/-- `WHERE date = (SELECT max(date) FROM prediction)` under SQL three-valued
logic: the comparison holds only when both sides are non-null and equal. -/
def dateIsMax (P : List PredRow) (v : ViewRow) : Bool :=
  match v.date, maxDate P with
  | some d, some m => d == m
  | _, _ => false

/-- The Latest-View Refresher query (processor.py lines 254–269): join,
restrict to the maximum date, and `GROUP BY` every selected column — i.e.
deduplicate identical tuples. -/
def latestViewRows (P : List PredRow) (C : List GeomRow) : List ViewRow :=
  ((fullOuterJoin P C).filter (dateIsMax P)).dedup

/-! ## The invocation pipeline

The decoded dataset: the coordinate axes `xc`/`yc` (kilometers) and the
record points of the data variables. -/

structure Dataset where
  xc : List ℚ
  yc : List ℚ
  records : List PredRecordRaw

/-- Database state touched by one invocation.  `latestExists` tracks whether
the materialized view exists; `latest` is its contents. -/
structure DB where
  geom : GeomTable
  pred : PredTable
  latestExists : Bool
  latest : List ViewRow

/-- `Processor.load` (processor.py lines 66–76): on a decode failure
(`ValueError`) the error is logged and SWALLOWED, leaving `self.xr = None`.
`decoded` is the outcome of `xarray.open_dataset` on the input bytes. -/
def load (decoded : Option Dataset) (log : List String) :
    Option Dataset × List String :=
  match decoded with
  | some ds => (some ds, log ++ ["Loaded NetCDF data"])
  | none => (none, log ++ ["Could not load NetCDF data"])

/-- `Processor.update_geometries` as one operation: the
`CREATE TABLE IF NOT EXISTS` (a schema statement touching no rows) followed
by the deriver and insert loop.  With `self.xr = None` the attribute access
`self.xr.xc` at processor.py line 101 raises before any row insert. -/
def update_geometries_op (xr : Option Dataset) (db : DB) : Except String DB :=
  match xr with
  | none => .error "AttributeError: NoneType object has no attribute xc"
  | some ds => .ok { db with geom := update_geometries ds.xc ds.yc db.geom }

/-- `Processor.update_predictions` as one operation; with `self.xr = None`
the subscript access of the mean variable at processor.py line 179 raises
before any row insert. -/
def update_predictions_op (xr : Option Dataset) (db : DB) : Except String DB :=
  match xr with
  | none => .error "TypeError: NoneType object is not subscriptable"
  | some ds =>
    .ok { db with pred := update_predictions db.geom.rows ds.records db.pred }

/-- `Processor.update_latest_prediction` (processor.py lines 247–273): a
plain `DROP MATERIALIZED VIEW` (no `IF EXISTS`) — which errors when the view
is absent — followed by `CREATE MATERIALIZED VIEW` over the query. -/
def update_latest_prediction_op (db : DB) : Except String DB :=
  if db.latestExists then
    .ok { db with latest := latestViewRows db.pred.rows db.geom.rows,
                  latestExists := true }
  else
    .error "materialized view prediction_latest does not exist"

/-- Modelled from the spec: the blob-trigger entry point (the
`InputBlobTrigger` binding module is not part of the core source) invokes
`load` and then the three operations in order; an uncaught exception aborts
the invocation at that point (§6: "the triggering mechanism is responsible
for invoking them in that order once per new input file").  The result is
the database state when the run ends, the fatal error if any, and the log. -/
def handleBlob (decoded : Option Dataset) (db : DB) :
    DB × Option String × List String :=
  let (xr, log) := load decoded []
  match update_geometries_op xr db with
  | .error e => (db, some e, log)
  | .ok db1 =>
    match update_predictions_op xr db1 with
    | .error e => (db1, some e, log)
    | .ok db2 =>
      match update_latest_prediction_op db2 with
      | .error e => (db2, some e, log)
      | .ok db3 => (db3, none, log)

/-! ## Chunking and progress reporting -/

/-- Modelled from the spec: `utils.batches` (§4.6) — "splits an ordered
sequence into fixed-size chunks (final chunk may be shorter)".  The fuel
argument (the length of the remaining list suffices) makes the recursion
structural. -/
def batchesGo (size : ℕ) : ℕ → List α → List (List α)
  | _, [] => []
  | 0, _ :: _ => []
  | fuel + 1, x :: l => (x :: l).take size :: batchesGo size fuel ((x :: l).drop size)

def batches (size : ℕ) (l : List α) : List (List α) := batchesGo size l.length l

/-- `n_batches = int(math.ceil(len(records) / self.batch_size))`
(processor.py lines 129 and 208), as a natural-number ceiling division. -/
def nBatches (len size : ℕ) : ℕ := (len + size - 1) / size

/-- The progress reports of the insert loops (processor.py lines 131–148 and
210–242): after chunk `idx` (1-based), the estimated remaining time is
`elapsed * (n_batches / idx - 1)`, where `elapsedAt idx` is the wall-clock
time between `start_time` and the completion of chunk `idx`. -/
def progressReports (elapsedAt : ℕ → ℚ) (size : ℕ) (records : List α) :
    List (ℕ × ℚ) :=
  let nb := nBatches records.length size
  (List.range (batches size records).length).map fun i =>
    (i + 1, elapsedAt (i + 1) * ((nb : ℚ) / (i + 1 : ℕ) - 1))

/-! ## Spec-side definitions for refinement comparison -/

/-- The per-axis half-width as the spec sentence words it: mean step
converted to meters FIRST, then halved and truncated —
`trunc(0.5 * 1000 * mean_step_km)`.  To be compared with `axisDeltaM`. -/
def specHalfWidthM (axis : List ℚ) : ℤ := pyInt (1/2 * (1000 * mean_step_size axis))

/-- The Cell Resolver as the spec sentence words it: convert the record
coordinates with the SAME truncation as the Cell Upserter, then join on the
integer pair.  To be compared with `resolveCell`. -/
def specResolveCell (cells : List GeomRow) (r : PredRecord) : Option ℕ :=
  (cells.find? fun c =>
      c.centroid_x == truncKmToM r.xc && c.centroid_y == truncKmToM r.yc).map
    GeomRow.cell_id

/-! ## Basic facts about the embedding -/

theorem pyInt_intCast (n : ℤ) : pyInt (n : ℚ) = n := by
  unfold pyInt
  split <;> simp

/-- If a rational is integral (denominator 1), `pyInt` recovers its numerator. -/
theorem pyInt_eq_of_eq_intCast {q : ℚ} {n : ℤ} (h : q = (n : ℚ)) : pyInt q = n := by
  subst h; exact pyInt_intCast n

/-- The centroid pairs of the derived records are exactly the list product of
the truncated axes. -/
theorem deriveGeometries_centroids (xs ys : List ℚ) :
    (deriveGeometries xs ys).map (fun r => (r.centroid_x, r.centroid_y)) =
      (xs.map truncKmToM) ×ˢ (ys.map truncKmToM) := by
  simp only [deriveGeometries, SProd.sprod, List.product, List.map_flatMap,
    List.map_map, List.flatMap_map]
  rfl

theorem deriveGeometries_length (xs ys : List ℚ) :
    (deriveGeometries xs ys).length = xs.length * ys.length := by
  have h := congrArg List.length (deriveGeometries_centroids xs ys)
  simpa [List.length_product] using h

theorem insertGeom_conflict_iff (t : GeomTable) (r : GeomRecord) :
    (t.rows.any fun row =>
        row.centroid_x == r.centroid_x && row.centroid_y == r.centroid_y) = true
      ↔ hasCentroid t r.centroid_x r.centroid_y := by
  simp [List.any_eq_true, hasCentroid]

theorem insertGeom_rows_of_present {t : GeomTable} {r : GeomRecord}
    (h : hasCentroid t r.centroid_x r.centroid_y) :
    (insertGeom t r).rows = t.rows := by
  unfold insertGeom
  rw [if_pos ((insertGeom_conflict_iff t r).mpr h)]

theorem insertGeom_rows_sublist (t : GeomTable) (r : GeomRecord) :
    t.rows.Sublist (insertGeom t r).rows := by
  unfold insertGeom
  split
  · exact List.Sublist.refl _
  · exact List.sublist_append_left _ _

theorem hasCentroid_insertGeom {t : GeomTable} {cx cy : ℤ} (r : GeomRecord)
    (h : hasCentroid t cx cy) : hasCentroid (insertGeom t r) cx cy := by
  obtain ⟨row, hmem, hrow⟩ := h
  exact ⟨row, (insertGeom_rows_sublist t r).mem hmem, hrow⟩

theorem hasCentroid_insertGeom_self (t : GeomTable) (r : GeomRecord) :
    hasCentroid (insertGeom t r) r.centroid_x r.centroid_y := by
  unfold insertGeom
  split
  · next h => exact (insertGeom_conflict_iff t r).mp h
  · exact ⟨_, List.mem_append_right _ (List.mem_singleton_self _), rfl, rfl⟩

theorem hasCentroid_foldl_insertGeom (l : List GeomRecord) (t : GeomTable)
    {cx cy : ℤ} (h : hasCentroid t cx cy) :
    hasCentroid (l.foldl insertGeom t) cx cy := by
  induction l generalizing t with
  | nil => exact h
  | cons r l ih => exact ih _ (hasCentroid_insertGeom r h)

/-- After folding the inserts over a record list, every record's centroid pair
is present in the table. -/
theorem foldl_insertGeom_covers (l : List GeomRecord) (t : GeomTable) :
    ∀ r ∈ l, hasCentroid (l.foldl insertGeom t) r.centroid_x r.centroid_y := by
  induction l generalizing t with
  | nil => intro r hr; cases hr
  | cons a l ih =>
    intro r hr
    rcases List.mem_cons.mp hr with rfl | hr
    · exact hasCentroid_foldl_insertGeom l _ (hasCentroid_insertGeom_self t r)
    · exact ih _ r hr

/-- Folding inserts whose centroid pairs are all already present leaves the
rows unchanged. -/
theorem foldl_insertGeom_rows_of_covered (l : List GeomRecord) (t : GeomTable)
    (h : ∀ r ∈ l, hasCentroid t r.centroid_x r.centroid_y) :
    (l.foldl insertGeom t).rows = t.rows := by
  induction l generalizing t with
  | nil => rfl
  | cons a l ih =>
    have ha := h a (List.mem_cons_self a l)
    have hrest : ∀ r ∈ l, hasCentroid (insertGeom t a) r.centroid_x r.centroid_y :=
      fun r hr => hasCentroid_insertGeom a (h r (List.mem_cons_of_mem a hr))
    rw [List.foldl_cons, ih _ hrest, insertGeom_rows_of_present ha]

/-! ## Properties of the chunking utility -/

/-- Ceiling division of zero is zero. -/
theorem nBatches_zero (size : ℕ) (hs : 1 ≤ size) : nBatches 0 size = 0 := by
  unfold nBatches
  exact Nat.div_eq_of_lt (by omega)

/-- One chunk is removed: the ceiling count decreases by exactly one. -/
theorem nBatches_step (size n : ℕ) (hs : 1 ≤ size) (hn : 1 ≤ n) :
    nBatches (n - size) size + 1 = nBatches n size := by
  unfold nBatches
  rcases le_or_lt n size with h | h
  · have e1 : n - size + size - 1 = size - 1 := by omega
    have e2 : n + size - 1 = size * 1 + (n - 1) := by omega
    rw [e1, Nat.div_eq_of_lt (by omega), e2, Nat.mul_add_div (by omega),
      Nat.div_eq_of_lt (by omega)]
  · have e : n + size - 1 = (n - size + size - 1) + size := by omega
    rw [e, Nat.add_div_right _ (by omega)]

theorem batchesGo_length (size : ℕ) (hs : 1 ≤ size) :
    ∀ (fuel : ℕ) (l : List α), l.length ≤ fuel →
      (batchesGo size fuel l).length = nBatches l.length size := by
  intro fuel
  induction fuel with
  | zero =>
    intro l hl
    have : l = [] := List.eq_nil_of_length_eq_zero (by omega)
    subst this
    simp [batchesGo, nBatches_zero size hs]
  | succ fuel ih =>
    intro l hl
    match l with
    | [] => simp [batchesGo, nBatches_zero size hs]
    | x :: l' =>
      have hdrop : ((x :: l').drop size).length ≤ fuel := by
        rw [List.length_drop, List.length_cons]
        simp only [List.length_cons] at hl
        omega
      have h1 : (batchesGo size (fuel + 1) (x :: l')).length
          = (batchesGo size fuel ((x :: l').drop size)).length + 1 := by
        simp [batchesGo]
      rw [h1, ih _ hdrop, List.length_drop]
      exact nBatches_step size (x :: l').length hs (by simp)

/-- The number of chunks produced by `batches` equals
`int(math.ceil(len(records) / batch_size))`. -/
theorem batches_length (size : ℕ) (hs : 1 ≤ size) (l : List α) :
    (batches size l).length = nBatches l.length size :=
  batchesGo_length size hs l.length l le_rfl

/-- The chunks concatenate back to the original sequence. -/
theorem batchesGo_flatten (size : ℕ) (hs : 1 ≤ size) :
    ∀ (fuel : ℕ) (l : List α), l.length ≤ fuel →
      (batchesGo size fuel l).flatten = l := by
  intro fuel
  induction fuel with
  | zero =>
    intro l hl
    have : l = [] := List.eq_nil_of_length_eq_zero (by omega)
    subst this
    simp [batchesGo]
  | succ fuel ih =>
    intro l hl
    match l with
    | [] => simp [batchesGo]
    | x :: l' =>
      have hdrop : ((x :: l').drop size).length ≤ fuel := by
        rw [List.length_drop, List.length_cons]
        simp only [List.length_cons] at hl
        omega
      simp only [batchesGo, List.flatten_cons, ih _ hdrop,
        List.take_append_drop]

theorem batches_flatten (size : ℕ) (hs : 1 ≤ size) (l : List α) :
    (batches size l).flatten = l :=
  batchesGo_flatten size hs l.length l le_rfl

/-! ## Properties of the prediction filter and upsert -/

/-- Every record surviving `where(mean > 0).dropna()` has a strictly
positive mean. -/
theorem filterPredictions_mean_pos (rs : List PredRecordRaw) :
    ∀ p ∈ filterPredictions rs, 0 < p.mean := by
  intro p hp
  simp only [filterPredictions, List.mem_filterMap] at hp
  obtain ⟨a, _, heq⟩ := hp
  rcases hm : a.mean with _ | m
  · simp [whereMeanPos, hm] at heq
  · by_cases h0 : 0 < m
    · rcases hs : a.stddev with _ | s
      · simp [whereMeanPos, hm, h0, hs] at heq
      · simp only [whereMeanPos, hm, h0, if_true, hs] at heq
        rw [Option.some_inj] at heq
        rw [← heq]
        exact h0
    · simp [whereMeanPos, hm, h0] at heq

/-- Masking keeps a missing standard deviation missing. -/
theorem whereMeanPos_stddev_none {r : PredRecordRaw} (h : r.stddev = none) :
    (whereMeanPos r).stddev = none := by
  unfold whereMeanPos
  rcases r.mean with _ | m
  · exact rfl
  · dsimp only
    split
    · exact h
    · rfl

/-- A row of the table after one insert either was already there or carries
the incoming record's mean. -/
theorem mem_insertPred_rows {t : PredTable} {m : MergedRecord} {row : PredRow}
    (h : row ∈ (insertPred t m).rows) : row ∈ t.rows ∨ row.mean = m.mean := by
  simp only [insertPred] at h
  split at h
  · exact Or.inl h
  · rcases List.mem_append.mp h with h' | h'
    · exact Or.inl h'
    · right
      rw [List.mem_singleton.mp h']

theorem foldl_insertPred_mean_pos (l : List MergedRecord) (t : PredTable)
    (ht : ∀ row ∈ t.rows, 0 < row.mean) (hl : ∀ m ∈ l, 0 < m.mean) :
    ∀ row ∈ (l.foldl insertPred t).rows, 0 < row.mean := by
  induction l generalizing t with
  | nil => exact ht
  | cons a l ih =>
    refine ih (insertPred t a) ?_ fun m hm => hl m (List.mem_cons_of_mem a hm)
    intro row hrow
    rcases mem_insertPred_rows hrow with h' | h'
    · exact ht row h'
    · rw [h']
      exact hl a (List.mem_cons_self a l)

/-! ## Properties of the latest view -/

theorem mem_latestViewRows {P : List PredRow} {C : List GeomRow} {v : ViewRow} :
    v ∈ latestViewRows P C ↔
      v ∈ (fullOuterJoin P C).filter (dateIsMax P) :=
  List.mem_dedup

/-- A prediction on the maximum date, resolved to a cell present in the
geometry table, contributes its joined row to the view. -/
theorem viewRow_mem_latestViewRows {P : List PredRow} {C : List GeomRow}
    {p : PredRow} {c : GeomRow} (hp : p ∈ P) (hc : c ∈ C)
    (hmax : maxDate P = some p.date) (hcell : p.cell_id = some c.cell_id) :
    viewRowOfPred p (some c) ∈ latestViewRows P C := by
  rw [mem_latestViewRows, List.mem_filter]
  constructor
  · apply List.mem_append_left
    rw [List.mem_flatMap]
    refine ⟨p, hp, ?_⟩
    have hcf : c ∈ C.filter fun c' => p.cell_id == some c'.cell_id :=
      List.mem_filter.mpr ⟨hc, by simp [hcell]⟩
    rcases hfil : C.filter fun c' => p.cell_id == some c'.cell_id with _ | ⟨c0, cs⟩
    · rw [hfil] at hcf
      cases hcf
    · rw [hfil] at hcf
      rw [hfil]
      exact List.mem_map.mpr ⟨c, hcf, rfl⟩
  · simp [dateIsMax, viewRowOfPred, hmax]

/-! ## Claim theorems -/

/-- **C2** counterexample.  The claim asserts pairwise-distinct
`(centroid_x, centroid_y)` for EVERY pair of axes of length ≥ 2.  On the
x-axis `[0 km, 0.0005 km]` both values truncate to 0 m, so the deriver
emits duplicate centroid pairs (while still producing `len(x)*len(y)`
records). -/
theorem claim2_counterexample :
    (deriveGeometries [0, 1/2000] [0, 1]).length = 2 * 2 ∧
    ¬ ((deriveGeometries [0, 1/2000] [0, 1]).map
        fun r => (r.centroid_x, r.centroid_y)).Nodup := by
  constructor
  · rw [deriveGeometries_length]
    rfl
  · have h : (deriveGeometries [0, 1/2000] [0, 1]).map
        (fun r => (r.centroid_x, r.centroid_y)) = [(0, 0), (0, 1000), (0, 0), (0, 1000)] := by
      norm_num [deriveGeometries, axisDeltaM, mean_step_size, absDiffSum, pyInt]
    rw [h]
    decide

/-- **C2** (amended).  For axes of length ≥ 2 the deriver produces exactly
`len(x)*len(y)` records; the centroid pairs are pairwise distinct provided
the truncated integer-meter values of each axis are themselves pairwise
distinct (which the claim's unrestricted form lacks — see the
counterexample). -/
theorem claim2_deriver_count_and_distinct (xs ys : List ℚ)
    (hx : 2 ≤ xs.length) (hy : 2 ≤ ys.length)
    (hxd : (xs.map truncKmToM).Nodup) (hyd : (ys.map truncKmToM).Nodup) :
    (deriveGeometries xs ys).length = xs.length * ys.length ∧
    ((deriveGeometries xs ys).map
        fun r => (r.centroid_x, r.centroid_y)).Nodup := by
  refine ⟨deriveGeometries_length xs ys, ?_⟩
  rw [deriveGeometries_centroids]
  exact hxd.product hyd

theorem claim2_deriver_count_and_distinct_witness :
    (deriveGeometries [(0 : ℚ), 10] [(0 : ℚ), 10]).length =
      ([(0 : ℚ), 10] : List ℚ).length * ([(0 : ℚ), 10] : List ℚ).length ∧
    ((deriveGeometries [(0 : ℚ), 10] [(0 : ℚ), 10]).map
        fun r => (r.centroid_x, r.centroid_y)).Nodup := by
  have hxd : (([(0 : ℚ), 10] : List ℚ).map truncKmToM).Nodup := by
    have h : (([(0 : ℚ), 10] : List ℚ).map truncKmToM) = [0, 10000] := by
      norm_num [truncKmToM, pyInt]
    rw [h]
    decide
  exact claim2_deriver_count_and_distinct [0, 10] [0, 10] (by norm_num)
    (by norm_num) hxd hxd

/-- **C3** counterexample.  The claim states the half-width is
`trunc(0.5 * 1000 * mean_step_km)` (truncate AFTER the meter conversion).
The code (processor.py line 102) computes `1000 * int(0.5 * mean_step_km)`
(truncate BEFORE).  On the axis `[0 km, 25 km]` (mean step 25 km) the code
yields 12000 m whereas the claim's formula yields 12500 m. -/
theorem claim3_counterexample :
    axisDeltaM [0, 25] = 12000 ∧ specHalfWidthM [0, 25] = 12500 ∧
    axisDeltaM [0, 25] ≠ specHalfWidthM [0, 25] := by
  refine ⟨?_, ?_, ?_⟩
  · norm_num [axisDeltaM, mean_step_size, absDiffSum, pyInt]
  · norm_num [specHalfWidthM, mean_step_size, absDiffSum, pyInt]
  · norm_num [axisDeltaM, specHalfWidthM, mean_step_size, absDiffSum, pyInt]

/-- **C3** (amended).  For every pair of axes of length ≥ 2, the per-axis
half-width equals `1000 * trunc(0.5 * mean_step_km)` — the mean absolute
consecutive difference halved, TRUNCATED TO AN INTEGER IN KILOMETERS, then
converted to meters — and this single per-axis half-width determines the
polygon of every cell of the grid. -/
theorem claim3_half_width (xs ys : List ℚ)
    (hx : 2 ≤ xs.length) (hy : 2 ≤ ys.length) :
    axisDeltaM xs = 1000 * pyInt (1/2 * mean_step_size xs) ∧
    axisDeltaM ys = 1000 * pyInt (1/2 * mean_step_size ys) ∧
    ∀ r ∈ deriveGeometries xs ys,
      r.geom_6931 = mkPolygon (r.centroid_x - axisDeltaM xs)
        (r.centroid_x + axisDeltaM xs) (r.centroid_y - axisDeltaM ys)
        (r.centroid_y + axisDeltaM ys) ∧
      r.geom_4326_src = r.geom_6931 := by
  refine ⟨rfl, rfl, ?_⟩
  intro r hr
  simp only [deriveGeometries, List.mem_flatMap, List.mem_map] at hr
  obtain ⟨x, _, y, _, rfl⟩ := hr
  exact ⟨rfl, rfl⟩

theorem claim3_half_width_witness :
    axisDeltaM [(0 : ℚ), 10] = 1000 * pyInt (1/2 * mean_step_size [(0 : ℚ), 10]) ∧
    axisDeltaM [(0 : ℚ), 10] = 1000 * pyInt (1/2 * mean_step_size [(0 : ℚ), 10]) ∧
    ∀ r ∈ deriveGeometries [(0 : ℚ), 10] [(0 : ℚ), 10],
      r.geom_6931 = mkPolygon (r.centroid_x - axisDeltaM [(0 : ℚ), 10])
        (r.centroid_x + axisDeltaM [(0 : ℚ), 10])
        (r.centroid_y - axisDeltaM [(0 : ℚ), 10])
        (r.centroid_y + axisDeltaM [(0 : ℚ), 10]) ∧
      r.geom_4326_src = r.geom_6931 :=
  claim3_half_width [0, 10] [0, 10] (by norm_num) (by norm_num)

/-- **C4**.  Running the Cell Upserter a second time on the same grid
against the resulting database state changes neither the row contents nor
the row count of the geometry table: every re-inserted record hits the
`UNIQUE (centroid_x, centroid_y)` constraint and is skipped by
`ON CONFLICT DO NOTHING`, and conflicts never update the existing row. -/
theorem claim4_cell_upserter_idempotent (xs ys : List ℚ) (t : GeomTable) :
    (update_geometries xs ys (update_geometries xs ys t)).rows =
      (update_geometries xs ys t).rows ∧
    (update_geometries xs ys (update_geometries xs ys t)).rows.length =
      (update_geometries xs ys t).rows.length := by
  have h : (update_geometries xs ys (update_geometries xs ys t)).rows =
      (update_geometries xs ys t).rows := by
    apply foldl_insertGeom_rows_of_covered
    exact fun r hr => foldl_insertGeom_covers _ t r hr
  exact ⟨h, by rw [h]⟩

/-- **C1** counterexample.  A record at `xc = 1/2500 km` (0.4 m) truncates
to centroid 0 m — exactly the centroid pair of the single geometry row —
yet the resolver leaves `cell_id` null, because the merge key is the exact
value `1000 * xc = 2/5`, NOT the truncated integer used by the Cell
Upserter. -/
theorem claim1_counterexample :
    truncKmToM ((1 : ℚ)/2500) = 0 ∧ truncKmToM (0 : ℚ) = 0 ∧
    (GeomRow.mk 1 0 0 [] []) ∈ [GeomRow.mk 1 0 0 [] []] ∧
    specResolveCell [GeomRow.mk 1 0 0 [] []]
      (PredRecord.mk 0 0 (1/2500) 0 1 1) = some 1 ∧
    resolveCell [GeomRow.mk 1 0 0 [] []]
      (PredRecord.mk 0 0 (1/2500) 0 1 1) = none := by
  refine ⟨?_, ?_, List.mem_singleton_self _, ?_, ?_⟩
  · norm_num [truncKmToM, pyInt]
  · norm_num [truncKmToM, pyInt]
  · norm_num [specResolveCell, truncKmToM, pyInt, List.find?]
  · norm_num [resolveCell, xcMeters, ycMeters, List.find?]

/-- **C1** (amended).  Under the geometry table's centroid uniqueness:
a record matches a cell exactly when its meter coordinates `1000 * xc`,
`1000 * yc` are EXACTLY the integer centroids (so truncation changes
nothing on matched records), and then the resolver assigns that row's
`cell_id`; conversely every resolved `cell_id` refers to a geometry row
whose centroid-meter values equal the truncated record coordinates. -/
theorem claim1_resolver_roundtrip (cells : List GeomRow) (r : PredRecord)
    (hnd : (cells.map fun c => (c.centroid_x, c.centroid_y)).Nodup) :
    (∀ c ∈ cells, xcMeters r = (c.centroid_x : ℚ) →
      ycMeters r = (c.centroid_y : ℚ) →
      resolveCell cells r = some c.cell_id) ∧
    (∀ i, resolveCell cells r = some i →
      ∃ c ∈ cells, c.cell_id = i ∧ c.centroid_x = truncKmToM r.xc ∧
        c.centroid_y = truncKmToM r.yc) := by
  constructor
  · intro c hc hx hy
    have hpc : (decide (xcMeters r = (c.centroid_x : ℚ)) &&
        decide (ycMeters r = (c.centroid_y : ℚ))) = true := by
      simp [hx, hy]
    rcases hfind : cells.find? fun c' =>
        decide (xcMeters r = (c'.centroid_x : ℚ)) &&
          decide (ycMeters r = (c'.centroid_y : ℚ)) with _ | c'
    · exact absurd hpc (by simpa using List.find?_eq_none.mp hfind c hc)
    · have hp' := List.find?_some hfind
      have hmem' := List.mem_of_find?_eq_some hfind
      simp only [Bool.and_eq_true, decide_eq_true_eq] at hp'
      have hcx : c'.centroid_x = c.centroid_x := by
        exact_mod_cast hp'.1.symm.trans hx
      have hcy : c'.centroid_y = c.centroid_y := by
        exact_mod_cast hp'.2.symm.trans hy
      have hcc : c' = c :=
        List.inj_on_of_nodup_map hnd hmem' hc (by rw [hcx, hcy])
      rw [resolveCell, hfind, hcc]
      rfl
  · intro i hi
    obtain ⟨c, hfind, rfl⟩ := Option.map_eq_some'.mp hi
    have hp := List.find?_some hfind
    simp only [Bool.and_eq_true, decide_eq_true_eq] at hp
    refine ⟨c, List.mem_of_find?_eq_some hfind, rfl, ?_, ?_⟩
    · exact (pyInt_eq_of_eq_intCast (hp.1 : (1000 * r.xc : ℚ) = _)).symm
    · exact (pyInt_eq_of_eq_intCast (hp.2 : (1000 * r.yc : ℚ) = _)).symm

theorem claim1_resolver_roundtrip_witness :
    ((([GeomRow.mk 1 5000 7000 [] []]).map
        fun c => (c.centroid_x, c.centroid_y)).Nodup) ∧
    resolveCell [GeomRow.mk 1 5000 7000 [] []]
      (PredRecord.mk 0 0 5 7 1 1) = some 1 := by
  refine ⟨by decide, ?_⟩
  exact (claim1_resolver_roundtrip [GeomRow.mk 1 5000 7000 [] []]
      (PredRecord.mk 0 0 5 7 1 1) (by decide)).1
    (GeomRow.mk 1 5000 7000 [] []) (List.mem_singleton_self _)
    (by norm_num [xcMeters]) (by norm_num [ycMeters])

/-- **C5**.  The strictly-positive-mean filter runs before cell resolution:
every merged record carries `mean > 0`, and therefore a run of the
Prediction Upserter on a table whose rows all have `mean > 0` (e.g. any
table built by previous runs, starting from empty) leaves every row with
`mean > 0` — records with non-positive or missing mean are never
written. -/
theorem claim5_mean_positive (cells : List GeomRow)
    (raws : List PredRecordRaw) (t : PredTable)
    (ht : ∀ row ∈ t.rows, 0 < row.mean) :
    (∀ m ∈ update_predictions_records cells raws, 0 < m.mean) ∧
    (∀ row ∈ (update_predictions cells raws t).rows, 0 < row.mean) := by
  have hmerged : ∀ m ∈ update_predictions_records cells raws, 0 < m.mean := by
    intro m hm
    simp only [update_predictions_records, List.mem_map] at hm
    obtain ⟨p, hp, rfl⟩ := hm
    exact filterPredictions_mean_pos raws p hp
  exact ⟨hmerged, foldl_insertPred_mean_pos _ t ht hmerged⟩

theorem claim5_mean_positive_witness :
    (∀ row ∈ (PredTable.mk [] 1).rows, 0 < row.mean) ∧
    ((∀ m ∈ update_predictions_records []
        [PredRecordRaw.mk 0 0 0 0 (some 1) (some 1),
         PredRecordRaw.mk 0 1 0 0 (some (-1)) (some 1),
         PredRecordRaw.mk 0 2 0 0 none (some 1)], 0 < m.mean) ∧
      (∀ row ∈ (update_predictions []
        [PredRecordRaw.mk 0 0 0 0 (some 1) (some 1),
         PredRecordRaw.mk 0 1 0 0 (some (-1)) (some 1),
         PredRecordRaw.mk 0 2 0 0 none (some 1)] (PredTable.mk [] 1)).rows,
        0 < row.mean)) :=
  ⟨fun row h => absurd h (List.not_mem_nil row),
   claim5_mean_positive _ _ _ fun row h => absurd h (List.not_mem_nil row)⟩

/-- **C10**.  `dropna()` drops a record with a missing value in ANY field:
a record whose stddev is missing contributes nothing to the filtered
dataframe — so it is never resolved against the geometry table and never
written — even when its mean is strictly positive. -/
theorem claim10_missing_stddev_dropped (cells : List GeomRow)
    (raws : List PredRecordRaw) (t : PredTable) (r : PredRecordRaw)
    (hs : r.stddev = none) :
    filterPredictions (r :: raws) = filterPredictions raws ∧
    (update_predictions cells (r :: raws) t).rows =
      (update_predictions cells raws t).rows := by
  have hf : filterPredictions (r :: raws) = filterPredictions raws := by
    have hw := whereMeanPos_stddev_none hs
    rcases hm : (whereMeanPos r).mean with _ | m <;>
      simp [filterPredictions, List.filterMap_cons, hm, hw]
  refine ⟨hf, ?_⟩
  unfold update_predictions update_predictions_records
  rw [hf]

theorem claim10_missing_stddev_dropped_witness :
    (PredRecordRaw.mk 0 0 0 0 (some 1) none).stddev = none ∧
    (filterPredictions [PredRecordRaw.mk 0 0 0 0 (some 1) none] =
        filterPredictions [] ∧
      (update_predictions [] [PredRecordRaw.mk 0 0 0 0 (some 1) none]
          (PredTable.mk [] 1)).rows =
        (update_predictions [] [] (PredTable.mk [] 1)).rows) :=
  ⟨rfl, claim10_missing_stddev_dropped [] [] (PredTable.mk [] 1)
    (PredRecordRaw.mk 0 0 0 0 (some 1) none) rfl⟩

/-- **C6** counterexample.  The claim promises exactly one view row per
cell present in the max-date predictions; but the query groups by
`leadtime` (among all columns), so a cell with two leadtimes on the max
date yields TWO rows.  Here: predictions `(date 0, leadtime 1, cell 1)` and
`(date 0, leadtime 2, cell 1)` produce two view rows for cell 1. -/
theorem claim6_counterexample :
    maxDate [PredRow.mk 1 0 1 (some 1) 1 1, PredRow.mk 2 0 2 (some 1) 1 1] =
      some 0 ∧
    ((latestViewRows
        [PredRow.mk 1 0 1 (some 1) 1 1, PredRow.mk 2 0 2 (some 1) 1 1]
        [GeomRow.mk 1 0 0 [] []]).countP
      fun v => v.cell_id == some 1) = 2 :=
  ⟨by decide, by decide⟩

/-- **C6** (amended).  Every row of the latest view has its date equal to
`max(date)` over the predictions table; the view rows are pairwise distinct
(each appears exactly once, by the GROUP BY over all columns); and every
max-date prediction resolved to a geometry row contributes its joined row —
so a cell has one row PER DISTINCT (leadtime, mean, stddev) tuple on that
date, not one row overall. -/
theorem claim6_latest_view (P : List PredRow) (C : List GeomRow) :
    (∀ v ∈ latestViewRows P C, ∃ m, maxDate P = some m ∧ v.date = some m) ∧
    (∀ v ∈ latestViewRows P C, (latestViewRows P C).count v = 1) ∧
    (∀ p ∈ P, ∀ c ∈ C, maxDate P = some p.date → p.cell_id = some c.cell_id →
      viewRowOfPred p (some c) ∈ latestViewRows P C) := by
  refine ⟨?_, ?_, ?_⟩
  · intro v hv
    have hd := (List.mem_filter.mp (mem_latestViewRows.mp hv)).2
    unfold dateIsMax at hd
    split at hd
    · next d m hvd hmd =>
      have hdm : d = m := by simpa using hd
      exact ⟨m, hmd, by rw [hvd, hdm]⟩
    · next => exact absurd hd (by simp)
  · intro v hv
    refine List.count_eq_one_of_mem ?_ hv
    unfold latestViewRows
    exact List.nodup_dedup _
  · exact fun p hp c hc hmax hcell => viewRow_mem_latestViewRows hp hc hmax hcell

theorem claim6_latest_view_witness :
    viewRowOfPred (PredRow.mk 1 0 1 (some 1) 1 1) (some (GeomRow.mk 1 0 0 [] []))
      ∈ latestViewRows [PredRow.mk 1 0 1 (some 1) 1 1] [GeomRow.mk 1 0 0 [] []] :=
  (claim6_latest_view _ _).2.2 _ (List.mem_singleton_self _) _
    (List.mem_singleton_self _) (by decide) (by decide)

/-- **C7**.  When the input byte stream cannot be decoded
(`xarray.open_dataset` raises `ValueError`), the failure is logged, the
invocation ends in an error before any row is written, and the geometry and
prediction tables are exactly as before the run. -/
theorem claim7_decode_failure_aborts (db : DB) :
    (handleBlob none db).1 = db ∧
    (handleBlob none db).2.1 =
      some "AttributeError: NoneType object has no attribute xc" ∧
    (handleBlob none db).2.2 = ["Could not load NetCDF data"] :=
  ⟨rfl, rfl, rfl⟩

/-- **C8**.  Every run of the Latest-View Refresher issues an unguarded
`DROP MATERIALIZED VIEW` followed by `CREATE MATERIALIZED VIEW`: when the
view does not exist (as on the first run against a fresh database) the drop
fails fatally (there is no retry), and when it exists the view is replaced
by the recomputed query result. -/
theorem claim8_refresh_requires_view (db : DB) :
    (db.latestExists = false →
      update_latest_prediction_op db =
        Except.error "materialized view prediction_latest does not exist") ∧
    (db.latestExists = true →
      update_latest_prediction_op db =
        Except.ok (DB.mk db.geom db.pred true
          (latestViewRows db.pred.rows db.geom.rows))) := by
  constructor <;> intro h <;> simp [update_latest_prediction_op, h]

theorem claim8_refresh_requires_view_witness :
    (DB.mk (GeomTable.mk [] 1) (PredTable.mk [] 1) false []).latestExists =
      false ∧
    update_latest_prediction_op
        (DB.mk (GeomTable.mk [] 1) (PredTable.mk [] 1) false []) =
      Except.error "materialized view prediction_latest does not exist" :=
  ⟨rfl, (claim8_refresh_requires_view _).1 rfl⟩

/-- **C9**.  For a run with `n_batches ≥ 1` chunks (any nonempty record
list and `batch_size ≥ 1`), a progress report is emitted after every chunk
`idx`, `1 ≤ idx ≤ n_batches`, and its estimated remaining time is exactly
`elapsed * (n_batches / idx - 1)` where `elapsed` is the wall-clock time
(abstracted as `elapsedAt idx`) since the run's batching started. -/
theorem claim9_progress_reports {α : Type} (elapsedAt : ℕ → ℚ) (size : ℕ)
    (records : List α) (hs : 1 ≤ size) :
    (progressReports elapsedAt size records).length =
      nBatches records.length size ∧
    ∀ idx : ℕ, 1 ≤ idx → idx ≤ nBatches records.length size →
      (progressReports elapsedAt size records)[idx - 1]? =
        some (idx, elapsedAt idx *
          ((nBatches records.length size : ℚ) / (idx : ℚ) - 1)) := by
  have hlen : (batches size records).length = nBatches records.length size :=
    batches_length size hs records
  constructor
  · simp [progressReports, hlen]
  · intro idx h1 h2
    have hi : idx - 1 < (batches size records).length := by omega
    have he : idx - 1 + 1 = idx := by omega
    simp only [progressReports, List.getElem?_map, List.getElem?_range, hi,
      if_true, Option.map_some', he]

theorem claim9_progress_reports_witness :
    (progressReports (fun _ => 10) 2 ([0, 1, 2] : List ℕ)).length =
      nBatches ([0, 1, 2] : List ℕ).length 2 ∧
    ∀ idx : ℕ, 1 ≤ idx → idx ≤ nBatches ([0, 1, 2] : List ℕ).length 2 →
      (progressReports (fun _ => 10) 2 ([0, 1, 2] : List ℕ))[idx - 1]? =
        some (idx, 10 * ((nBatches ([0, 1, 2] : List ℕ).length 2 : ℚ) /
          (idx : ℚ) - 1)) :=
  claim9_progress_reports (fun _ => 10) 2 [0, 1, 2] (by norm_num)

end IceNetETL
